import Mathlib

/-! # kivik: driver data model and mock layer

A shallow embedding of

* `driver/changes.go`: the `ChangedRevs` type and its `UnmarshalJSON` method,
* `internal/mock/replication.go`: the mock `Replication` handle,
* `internal/mock/db.go`: the mock `DB` and its capability wrappers,

followed by the properties proved about them.

Conventions of the embedding.

* A Go slice is `Option (List α)`: `none` is the nil slice, `some xs` a non-nil
  slice with elements `xs`.
* A Go `error` result is `Option ε`: `none` is the nil error.
* A Go function value is a function threading an explicit world `σ` (whatever
  the callee may read or change); a function-typed field is an `Option`, `none`
  being the nil function value.
* A method result of type `Option _` is `none` exactly when the Go code stops
  with a run-time panic (index out of range, call of a nil function value).
-/

set_option autoImplicit false

namespace Kivik

/-! ## Go slices -/

/-- A Go slice value: `none` is the nil slice, `some xs` a non-nil slice. -/
abbrev Slice (α : Type) := Option (List α)

namespace Slice

variable {α : Type}

/-- Go `len(s)`; the nil slice has length 0. -/
def len : Slice α → Nat
  | none => 0
  | some xs => xs.length

/-- The elements a `range` loop visits, in order; none for the nil slice. -/
def elems : Slice α → List α
  | none => []
  | some xs => xs

/-- Go `s == nil`. -/
def isNil : Slice α → Bool
  | none => true
  | some _ => false

end Slice

namespace Driver

/-! ## `driver/changes.go` -/

/-- The anonymous element type of `changes` in `UnmarshalJSON`:
`struct { Rev string }` with the JSON field name `rev`. -/
structure RevRecord where
  Rev : String
  deriving DecidableEq, Repr

/-- Go `type ChangedRevs []string`. -/
abbrev ChangedRevs := Slice String

/-- Go `make([]string, n)`: `n` zero values (empty strings). The slice built
from it is never nil, also for `n = 0`. -/
def makeStrings (n : Nat) : List String :=
  List.replicate n ""

/-- Go index assignment `revs[i] = v`; `none` is the index-out-of-range panic. -/
def assignIndex (revs : List String) (i : Nat) (v : String) : Option (List String) :=
  if i < revs.length then some (revs.set i v) else none

/-- The loop `for i, change := range changes { revs[i] = change.Rev }`,
resumed at index `i` with the records still to visit. -/
def copyRevs : List RevRecord → Nat → List String → Option (List String)
  | [], _, revs => some revs
  | change :: rest, i, revs =>
    match assignIndex revs i change.Rev with
    | none => none
    | some revs1 => copyRevs rest (i + 1) revs1

/-- Go `func (c *ChangedRevs) UnmarshalJSON(data []byte) error`.

`unmarshal data` is the call `json.Unmarshal(data, &changes)` on the fresh
(nil) local `changes`: it gives the value of `changes` after the call and the
returned error. `c` is the value the receiver points to before the call; the
result is that value after the call together with the returned error. -/
def ChangedRevs.UnmarshalJSON {ε : Type}
    (unmarshal : List UInt8 → Slice RevRecord × Option ε)
    (c : ChangedRevs) (data : List UInt8) : Option (ChangedRevs × Option ε) :=
  match unmarshal data with
  | (_, some err) => some (c, some err)
  | (changes, none) =>
    match copyRevs changes.elems 0 (makeStrings changes.len) with
    | none => none
    | some revs => some (some revs, none)

/-! ## The JSON codec behind `json.Unmarshal`

The package-level `json` value used by `UnmarshalJSON` is declared outside the
files embedded here. The definitions of this section describe what it does for
the target type `[]struct{ Rev string }`, one level above the text: on JSON
values. The step from bytes to a JSON value stays a parameter `parse`. -/

/-- Modelled from the spec: a JSON value, as the codec behind the missing
package-level `json` sees its input once the text is read. `num` stands for
an integer written in plain decimal digits. -/
inductive Json where
  | null
  | bool (b : Bool)
  | num (n : Int)
  | str (s : String)
  | arr (items : List Json)
  | obj (fields : List (String × Json))

/-- Modelled from the spec: the errors of the codec behind the missing
package-level `json`: the input is not JSON text ("fully malformed JSON fails
with a decode error"), or a JSON value does not fit the Go type it is stored
into. -/
inductive DecodeError where
  | malformed
  | mismatch (goType : String)
  deriving DecidableEq, Repr

/-- Modelled from the spec: whether the missing codec takes a member name for
the field `Rev`, whose JSON name is `rev`. Letter case is not looked at, as in
Go's JSON decoding: `rev`, `Rev` and `REV` all name the field. -/
def isRevName (k : String) : Bool :=
  k.toList.map Char.toLower = ['r', 'e', 'v']

/-- Modelled from the spec: the missing codec storing one JSON value into the
`Rev` field of a record: a string is stored, `null` leaves the record as it
is, any other value is a decode error. -/
def storeRev (v : Json) (r : RevRecord) : Except DecodeError RevRecord :=
  match v with
  | .str s => .ok { r with Rev := s }
  | .null => .ok r
  | _ => .error (.mismatch "string")

/-- Modelled from the spec: the missing codec storing the members of one JSON
object into a record, in input order. Only a member named `rev` (in any letter
case) is looked at; a later one replaces an earlier one. A record with no `rev` member keeps the
empty string ("missing rev field: the element decodes to an empty string rather
than erroring"). -/
def decodeFields : List (String × Json) → RevRecord → Except DecodeError RevRecord
  | [], r => .ok r
  | kv :: rest, r =>
    if isRevName kv.1 then
      match storeRev kv.2 r with
      | .error e => .error e
      | .ok r1 => decodeFields rest r1
    else decodeFields rest r

/-- Modelled from the spec: the missing codec decoding one array element into a
record that starts as the zero value (`Rev` empty). -/
def decodeRecord : Json → Except DecodeError RevRecord
  | .obj fields => decodeFields fields { Rev := "" }
  | .null => .ok { Rev := "" }
  | _ => .error (.mismatch "struct")

/-- Modelled from the spec: the missing codec decoding the elements of a JSON
array in input order, one record per element; the first failure is the result. -/
def decodeRecords : List Json → Except DecodeError (List RevRecord)
  | [] => .ok []
  | j :: js =>
    match decodeRecord j with
    | .error e => .error e
    | .ok r =>
      match decodeRecords js with
      | .error e => .error e
      | .ok rs => .ok (r :: rs)

/-- Modelled from the spec: the call `json.Unmarshal(data, &changes)` of the
missing package-level `json`, on the fresh nil `changes`. `parse` is the
codec's reader of the text (`none`: the reader rejects the text). A JSON array gives a non-nil slice with one
record per element ("given `[]`, output is an empty list"), `null` leaves
`changes` nil without error, anything else is a decode error. -/
def jsonUnmarshal (parse : List UInt8 → Option Json) (data : List UInt8) :
    Slice RevRecord × Option DecodeError :=
  match parse data with
  | none => (none, some .malformed)
  | some .null => (none, none)
  | some (.arr items) =>
    match decodeRecords items with
    | .error e => (none, some e)
    | .ok rs => (some rs, none)
  | some _ => (none, some (.mismatch "slice"))

/-- The string value of the last member named `rev` (in any letter case) of a
JSON object, when the object has such a member and its value is a string. -/
def lastRev (fields : List (String × Json)) : Option String :=
  match (fields.filter (fun kv => isRevName kv.1)).getLast? with
  | some (_, .str s) => some s
  | _ => none

/-- Whether a JSON object has a member named `rev` (in any letter case). -/
def hasRev (fields : List (String × Json)) : Bool :=
  fields.any (fun kv => isRevName kv.1)

/-- Whether every member named `rev` (in any letter case) of a JSON object
holds a string. -/
def revsAreStrings (fields : List (String × Json)) : Bool :=
  fields.all (fun kv =>
    if isRevName kv.1 then (match kv.2 with | .str _ => true | _ => false) else true)

/-- The revision string a JSON value carries as a record: for an object the
string of its last member named `rev`, otherwise the empty string. -/
def revOf : Json → String
  | .obj fields => (lastRev fields).getD ""
  | _ => ""

/-! ### Sample inputs -/

/-- The bytes of an ASCII text. -/
def ascii (s : String) : List UInt8 :=
  s.toList.map (fun ch => UInt8.ofNat ch.toNat)

/-- The text `[{"rev":"1-a"},{"rev":"2-b"}]`. -/
def twoRevsText : List UInt8 :=
  ascii "[\x7b\"rev\":\"1-a\"\x7d,\x7b\"rev\":\"2-b\"\x7d]"

/-- The text `[]`. -/
def emptyArrayText : List UInt8 :=
  ascii "[]"

/-- The text `[{"rev":"1-a"},{"id":"x"},{"rev":""}]`: the second record has no
`rev` member, the third an empty one. -/
def missingRevText : List UInt8 :=
  ascii "[\x7b\"rev\":\"1-a\"\x7d,\x7b\"id\":\"x\"\x7d,\x7b\"rev\":\"\"\x7d]"

/-- The text `[{"rev":` (cut off). -/
def truncatedText : List UInt8 :=
  ascii "[\x7b\"rev\":"

/-- The records of `twoRevsText`. -/
def twoRevsRecords : List RevRecord :=
  [{ Rev := "1-a" }, { Rev := "2-b" }]

/-- The records of `missingRevText`. -/
def missingRevRecords : List RevRecord :=
  [{ Rev := "1-a" }, { Rev := "" }, { Rev := "" }]

/-- A reader that knows the sample texts above and rejects every other input. -/
def sampleParse (data : List UInt8) : Option Json :=
  if data = twoRevsText then
    some (.arr [.obj [("rev", .str "1-a")], .obj [("rev", .str "2-b")]])
  else if data = emptyArrayText then
    some (.arr [])
  else if data = missingRevText then
    some (.arr [.obj [("rev", .str "1-a")], .obj [("id", .str "x")], .obj [("rev", .str "")]])
  else
    none

/-! ### Well-formed JSON text -/

/-- JSON white space: space, tab, line feed, carriage return. -/
def isWs (b : UInt8) : Bool :=
  b = 0x20 || b = 0x09 || b = 0x0a || b = 0x0d

/-- A decimal digit. -/
def isDigit (b : UInt8) : Bool :=
  0x30 ≤ b && b ≤ 0x39

/-- A hexadecimal digit. -/
def isHex (b : UInt8) : Bool :=
  isDigit b || (0x41 ≤ b && b ≤ 0x46) || (0x61 ≤ b && b ≤ 0x66)

/-- Drops leading white space. -/
def skipWs : List UInt8 → List UInt8
  | [] => []
  | b :: rest => if isWs b then skipWs rest else b :: rest

/-- Drops leading digits. -/
def skipDigits : List UInt8 → List UInt8
  | [] => []
  | b :: rest => if isDigit b then skipDigits rest else b :: rest

/-- One or more digits. -/
def readDigits : List UInt8 → Option (List UInt8)
  | [] => none
  | b :: rest => if isDigit b then some (skipDigits rest) else none

/-- The integer part of a number: `0`, or a digit `1`..`9` followed by digits. -/
def readInt : List UInt8 → Option (List UInt8)
  | [] => none
  | b :: rest =>
    if b = 0x30 then some rest
    else if isDigit b then some (skipDigits rest)
    else none

/-- The optional fraction of a number: a point followed by digits. -/
def readFrac : List UInt8 → Option (List UInt8)
  | [] => some []
  | b :: rest => if b = 0x2e then readDigits rest else some (b :: rest)

/-- The optional exponent of a number: `e` or `E`, an optional sign, digits. -/
def readExp : List UInt8 → Option (List UInt8)
  | [] => some []
  | b :: rest =>
    if b = 0x65 || b = 0x45 then
      match rest with
      | [] => none
      | c :: rest1 => if c = 0x2b || c = 0x2d then readDigits rest1 else readDigits (c :: rest1)
    else some (b :: rest)

/-- A number: an optional minus sign, the integer part, an optional fraction
and an optional exponent. What follows the number is returned. -/
def readNumber (s : List UInt8) : Option (List UInt8) :=
  let s1 := match s with
    | [] => []
    | b :: rest => if b = 0x2d then rest else b :: rest
  match readInt s1 with
  | none => none
  | some s2 =>
    match readFrac s2 with
    | none => none
    | some s3 => readExp s3

/-- The rest of a string after its opening quote: characters other than the
quote, the backslash and control characters, or escapes, up to the closing
quote. -/
def readString : Nat → List UInt8 → Option (List UInt8)
  | 0, _ => none
  | _ + 1, [] => none
  | fuel + 1, b :: rest =>
    if b = 0x22 then some rest
    else if b = 0x5c then
      match rest with
      | [] => none
      | e :: rest1 =>
        if e = 0x22 || e = 0x5c || e = 0x2f || e = 0x62 || e = 0x66 || e = 0x6e || e = 0x72
            || e = 0x74 then
          readString fuel rest1
        else if e = 0x75 then
          match rest1 with
          | h1 :: h2 :: h3 :: h4 :: rest2 =>
            if isHex h1 && isHex h2 && isHex h3 && isHex h4 then readString fuel rest2 else none
          | _ => none
        else none
    else if b < 0x20 then none
    else readString fuel rest

/-- One of the literal names `true`, `false`, `null`. -/
def readLiteral (lit : List UInt8) (s : List UInt8) : Option (List UInt8) :=
  if s.take lit.length = lit then some (s.drop lit.length) else none

mutual

/-- One JSON value at the head of the input; what follows it is returned. -/
def readValue : Nat → List UInt8 → Option (List UInt8)
  | 0, _ => none
  | _ + 1, [] => none
  | fuel + 1, b :: rest =>
    if b = 0x22 then readString (rest.length + 1) rest
    else if b = 0x5b then
      match skipWs rest with
      | [] => none
      | c :: rest1 => if c = 0x5d then some rest1 else readElements fuel (c :: rest1)
    else if b = 0x7b then
      match skipWs rest with
      | [] => none
      | c :: rest1 => if c = 0x7d then some rest1 else readMembers fuel (c :: rest1)
    else if b = 0x74 then readLiteral (ascii "true") (b :: rest)
    else if b = 0x66 then readLiteral (ascii "false") (b :: rest)
    else if b = 0x6e then readLiteral (ascii "null") (b :: rest)
    else readNumber (b :: rest)

/-- The elements of a non-empty array after its opening bracket, up to the
closing bracket. -/
def readElements : Nat → List UInt8 → Option (List UInt8)
  | 0, _ => none
  | fuel + 1, s =>
    match readValue fuel s with
    | none => none
    | some s1 =>
      match skipWs s1 with
      | [] => none
      | c :: rest =>
        if c = 0x5d then some rest
        else if c = 0x2c then readElements fuel (skipWs rest)
        else none

/-- The members of a non-empty object after its opening brace, up to the
closing brace. -/
def readMembers : Nat → List UInt8 → Option (List UInt8)
  | 0, _ => none
  | _ + 1, [] => none
  | fuel + 1, q :: s =>
    if q = 0x22 then
      match readString (s.length + 1) s with
      | none => none
      | some s1 =>
        match skipWs s1 with
        | [] => none
        | c :: rest =>
          if c = 0x3a then
            match readValue fuel (skipWs rest) with
            | none => none
            | some s2 =>
              match skipWs s2 with
              | [] => none
              | d :: rest1 =>
                if d = 0x7d then some rest1
                else if d = 0x2c then readMembers fuel (skipWs rest1)
                else none
          else none
    else none

end

/-- Whether the bytes are a well-formed JSON text in the grammar of RFC 8259:
one value with optional white space around it. String contents are not checked
for being valid UTF-8, so every well-formed text is accepted. -/
def wellFormedJSON (data : List UInt8) : Bool :=
  match readValue (2 * data.length + 2) (skipWs data) with
  | none => false
  | some rest => skipWs rest = []

/-! ### Further sample inputs -/

/-- The text `[{"id":"x"},{"rev":1}]`: the first object has no `rev` member, the
second holds a number under `rev`. -/
def numericRevText : List UInt8 :=
  ascii "[\x7b\"id\":\"x\"\x7d,\x7b\"rev\":1\x7d]"

/-- The text `[{"REV":"1-a"}]`: no member is spelled `rev`. -/
def upperRevText : List UInt8 :=
  ascii "[\x7b\"REV\":\"1-a\"\x7d]"

/-- The text `[{"id":-01}]`: the number has a leading zero, which the JSON
grammar does not allow. -/
def leadingZeroText : List UInt8 :=
  ascii "[\x7b\"id\":-01\x7d]"

/-- A reader for the further sample texts, falling back on `sampleParse`. Like
the codec in use, it steps over the value of a member that is not stored
without checking its number syntax, and so reads `[{"id":-01}]` as an array of
one object. -/
def lenientParse (data : List UInt8) : Option Json :=
  if data = numericRevText then
    some (.arr [.obj [("id", .str "x")], .obj [("rev", .num 1)]])
  else if data = upperRevText then
    some (.arr [.obj [("REV", .str "1-a")]])
  else if data = leadingZeroText then
    some (.arr [.obj [("id", .num (-1))]])
  else
    sampleParse data

end Driver

namespace Mock

/-! ## `internal/mock/replication.go` -/

/-- The Go types the mock layer passes around without looking inside them. -/
structure GoTypes where
  /-- Go `context.Context` -/
  Context : Type
  /-- Go `map[string]interface{}` -/
  Options : Type
  /-- Go `interface{}` -/
  Any : Type
  /-- Go `error` (the nil error included) -/
  Error : Type
  /-- Go `time.Time` -/
  Time : Type
  /-- Go `driver.Rows` -/
  Rows : Type
  /-- Go `driver.Changes` -/
  Changes : Type
  /-- Go `*driver.Document` -/
  Document : Type
  /-- Go `*driver.DBStats` -/
  DBStats : Type
  /-- Go `*driver.Security` -/
  Security : Type
  /-- Go `*driver.Attachment` -/
  Attachment : Type
  /-- Go `[]driver.Index` -/
  Indexes : Type
  /-- Go `*driver.QueryPlan` -/
  QueryPlan : Type
  /-- Go `map[string][]string` -/
  DocMap : Type
  /-- Go `*driver.PurgeResult` -/
  PurgeResult : Type
  /-- Go `[]driver.BulkGetReference` -/
  BulkGetReferences : Type
  /-- Go `*driver.PartitionStats` -/
  PartitionStats : Type
  /-- Go `*driver.ReplicationInfo` -/
  ReplicationInfo : Type
  /-- Go `*mock.BulkDocer` -/
  BulkDocer : Type

/-- A Go function result: the returned value and the world after the call. -/
abbrev Ret (σ α : Type) := σ → α × σ

/-- Go `type Replication struct`. -/
structure Replication (σ : Type) (T : GoTypes) where
  ID : String
  DeleteFunc : Option (T.Context → Ret σ T.Error)
  StartTimeFunc : Option (Ret σ T.Time)
  EndTimeFunc : Option (Ret σ T.Time)
  ErrFunc : Option (Ret σ T.Error)
  ReplicationIDFunc : Option (Ret σ String)
  SourceFunc : Option (Ret σ String)
  TargetFunc : Option (Ret σ String)
  StateFunc : Option (Ret σ String)
  UpdateFunc : Option (T.Context → T.ReplicationInfo → Ret σ T.Error)

namespace Replication

variable {σ : Type} {T : GoTypes}

/-- Go `func (r *Replication) Source() string`. -/
def Source (r : Replication σ T) (w : σ) : Option (String × σ) :=
  match r.SourceFunc with
  | none => some (r.ID ++ "-source", w)
  | some f => some (f w)

/-- Go `func (r *Replication) Target() string`. -/
def Target (r : Replication σ T) (w : σ) : Option (String × σ) :=
  match r.TargetFunc with
  | none => some (r.ID ++ "-target", w)
  | some f => some (f w)

/-- Go `func (r *Replication) State() string`. -/
def State (r : Replication σ T) (w : σ) : Option (String × σ) :=
  match r.StateFunc with
  | none => none
  | some f => some (f w)

end Replication

/-! ## `internal/mock/db.go` -/

/-- Go `type DB struct`. -/
structure DB (σ : Type) (T : GoTypes) where
  ID : String
  AllDocsFunc : Option (T.Context → T.Options → Ret σ (T.Rows × T.Error))
  GetFunc : Option (T.Context → String → T.Options → Ret σ (T.Document × T.Error))
  CreateDocFunc : Option (T.Context → T.Any → T.Options → Ret σ (String × String × T.Error))
  PutFunc : Option (T.Context → String → T.Any → T.Options → Ret σ (String × T.Error))
  DeleteFunc : Option (T.Context → String → String → T.Options → Ret σ (String × T.Error))
  StatsFunc : Option (T.Context → Ret σ (T.DBStats × T.Error))
  CompactFunc : Option (T.Context → Ret σ T.Error)
  CompactViewFunc : Option (T.Context → String → Ret σ T.Error)
  ViewCleanupFunc : Option (T.Context → Ret σ T.Error)
  SecurityFunc : Option (T.Context → Ret σ (T.Security × T.Error))
  SetSecurityFunc : Option (T.Context → T.Security → Ret σ T.Error)
  ChangesFunc : Option (T.Context → T.Options → Ret σ (T.Changes × T.Error))
  PutAttachmentFunc :
    Option (T.Context → String → String → T.Attachment → T.Options → Ret σ (String × T.Error))
  GetAttachmentFunc :
    Option (T.Context → String → String → T.Options → Ret σ (T.Attachment × T.Error))
  DeleteAttachmentFunc :
    Option (T.Context → String → String → String → T.Options → Ret σ (String × T.Error))
  QueryFunc : Option (T.Context → String → String → T.Options → Ret σ (T.Rows × T.Error))

namespace DB

variable {σ : Type} {T : GoTypes}

/-- Go `func (db *DB) AllDocs`. -/
def AllDocs (db : DB σ T) (ctx : T.Context) (options : T.Options) (w : σ) :
    Option ((T.Rows × T.Error) × σ) :=
  match db.AllDocsFunc with
  | none => none
  | some f => some (f ctx options w)

/-- Go `func (db *DB) Get`. -/
def Get (db : DB σ T) (ctx : T.Context) (docID : String) (opts : T.Options) (w : σ) :
    Option ((T.Document × T.Error) × σ) :=
  match db.GetFunc with
  | none => none
  | some f => some (f ctx docID opts w)

/-- Go `func (db *DB) CreateDoc`. -/
def CreateDoc (db : DB σ T) (ctx : T.Context) (doc : T.Any) (opts : T.Options) (w : σ) :
    Option ((String × String × T.Error) × σ) :=
  match db.CreateDocFunc with
  | none => none
  | some f => some (f ctx doc opts w)

/-- Go `func (db *DB) Put`. -/
def Put (db : DB σ T) (ctx : T.Context) (docID : String) (doc : T.Any) (opts : T.Options)
    (w : σ) : Option ((String × T.Error) × σ) :=
  match db.PutFunc with
  | none => none
  | some f => some (f ctx docID doc opts w)

/-- Go `func (db *DB) Delete`. -/
def Delete (db : DB σ T) (ctx : T.Context) (docID rev : String) (opts : T.Options) (w : σ) :
    Option ((String × T.Error) × σ) :=
  match db.DeleteFunc with
  | none => none
  | some f => some (f ctx docID rev opts w)

/-- Go `func (db *DB) Stats`. -/
def Stats (db : DB σ T) (ctx : T.Context) (w : σ) : Option ((T.DBStats × T.Error) × σ) :=
  match db.StatsFunc with
  | none => none
  | some f => some (f ctx w)

/-- Go `func (db *DB) Compact`. -/
def Compact (db : DB σ T) (ctx : T.Context) (w : σ) : Option (T.Error × σ) :=
  match db.CompactFunc with
  | none => none
  | some f => some (f ctx w)

/-- Go `func (db *DB) CompactView`. -/
def CompactView (db : DB σ T) (ctx : T.Context) (docID : String) (w : σ) :
    Option (T.Error × σ) :=
  match db.CompactViewFunc with
  | none => none
  | some f => some (f ctx docID w)

/-- Go `func (db *DB) ViewCleanup`. -/
def ViewCleanup (db : DB σ T) (ctx : T.Context) (w : σ) : Option (T.Error × σ) :=
  match db.ViewCleanupFunc with
  | none => none
  | some f => some (f ctx w)

/-- Go `func (db *DB) Security`. -/
def Security (db : DB σ T) (ctx : T.Context) (w : σ) : Option ((T.Security × T.Error) × σ) :=
  match db.SecurityFunc with
  | none => none
  | some f => some (f ctx w)

/-- Go `func (db *DB) SetSecurity`. -/
def SetSecurity (db : DB σ T) (ctx : T.Context) (security : T.Security) (w : σ) :
    Option (T.Error × σ) :=
  match db.SetSecurityFunc with
  | none => none
  | some f => some (f ctx security w)

/-- Go `func (db *DB) Changes`. -/
def Changes (db : DB σ T) (ctx : T.Context) (opts : T.Options) (w : σ) :
    Option ((T.Changes × T.Error) × σ) :=
  match db.ChangesFunc with
  | none => none
  | some f => some (f ctx opts w)

/-- Go `func (db *DB) PutAttachment`. -/
def PutAttachment (db : DB σ T) (ctx : T.Context) (docID rev : String) (att : T.Attachment)
    (opts : T.Options) (w : σ) : Option ((String × T.Error) × σ) :=
  match db.PutAttachmentFunc with
  | none => none
  | some f => some (f ctx docID rev att opts w)

/-- Go `func (db *DB) GetAttachment`. -/
def GetAttachment (db : DB σ T) (ctx : T.Context) (docID filename : String) (opts : T.Options)
    (w : σ) : Option ((T.Attachment × T.Error) × σ) :=
  match db.GetAttachmentFunc with
  | none => none
  | some f => some (f ctx docID filename opts w)

/-- Go `func (db *DB) DeleteAttachment`. -/
def DeleteAttachment (db : DB σ T) (ctx : T.Context) (docID rev filename : String)
    (opts : T.Options) (w : σ) : Option ((String × T.Error) × σ) :=
  match db.DeleteAttachmentFunc with
  | none => none
  | some f => some (f ctx docID rev filename opts w)

/-- Go `func (db *DB) Query`. -/
def Query (db : DB σ T) (ctx : T.Context) (ddoc view : String) (opts : T.Options) (w : σ) :
    Option ((T.Rows × T.Error) × σ) :=
  match db.QueryFunc with
  | none => none
  | some f => some (f ctx ddoc view opts w)

end DB

/-- Go `type Finder struct`, embedding `*DB`. -/
structure Finder (σ : Type) (T : GoTypes) where
  DB : Option (Mock.DB σ T)
  CreateIndexFunc : Option (T.Context → String → String → T.Any → Ret σ T.Error)
  DeleteIndexFunc : Option (T.Context → String → String → Ret σ T.Error)
  FindFunc : Option (T.Context → T.Any → Ret σ (T.Rows × T.Error))
  GetIndexesFunc : Option (T.Context → Ret σ (T.Indexes × T.Error))
  ExplainFunc : Option (T.Context → T.Any → Ret σ (T.QueryPlan × T.Error))

namespace Finder

variable {σ : Type} {T : GoTypes}

/-- Go `func (db *Finder) CreateIndex`. -/
def CreateIndex (db : Finder σ T) (ctx : T.Context) (ddoc name : String) (index : T.Any) (w : σ) :
    Option (T.Error × σ) :=
  match db.CreateIndexFunc with
  | none => none
  | some f => some (f ctx ddoc name index w)

/-- Go `func (db *Finder) DeleteIndex`. -/
def DeleteIndex (db : Finder σ T) (ctx : T.Context) (ddoc name : String) (w : σ) :
    Option (T.Error × σ) :=
  match db.DeleteIndexFunc with
  | none => none
  | some f => some (f ctx ddoc name w)

/-- Go `func (db *Finder) Find`. -/
def Find (db : Finder σ T) (ctx : T.Context) (query : T.Any) (w : σ) :
    Option ((T.Rows × T.Error) × σ) :=
  match db.FindFunc with
  | none => none
  | some f => some (f ctx query w)

/-- Go `func (db *Finder) GetIndexes`. -/
def GetIndexes (db : Finder σ T) (ctx : T.Context) (w : σ) :
    Option ((T.Indexes × T.Error) × σ) :=
  match db.GetIndexesFunc with
  | none => none
  | some f => some (f ctx w)

/-- Go `func (db *Finder) Explain`. -/
def Explain (db : Finder σ T) (ctx : T.Context) (query : T.Any) (w : σ) :
    Option ((T.QueryPlan × T.Error) × σ) :=
  match db.ExplainFunc with
  | none => none
  | some f => some (f ctx query w)

end Finder

/-- Go `type OptsFinder struct`, embedding `*DB`. -/
structure OptsFinder (σ : Type) (T : GoTypes) where
  DB : Option (Mock.DB σ T)
  CreateIndexFunc : Option (T.Context → String → String → T.Any → T.Options → Ret σ T.Error)
  DeleteIndexFunc : Option (T.Context → String → String → T.Options → Ret σ T.Error)
  FindFunc : Option (T.Context → T.Any → T.Options → Ret σ (T.Rows × T.Error))
  GetIndexesFunc : Option (T.Context → T.Options → Ret σ (T.Indexes × T.Error))
  ExplainFunc : Option (T.Context → T.Any → T.Options → Ret σ (T.QueryPlan × T.Error))

namespace OptsFinder

variable {σ : Type} {T : GoTypes}

/-- Go `func (db *OptsFinder) CreateIndex`. -/
def CreateIndex (db : OptsFinder σ T) (ctx : T.Context) (ddoc name : String) (index : T.Any) (opts : T.Options) (w : σ) :
    Option (T.Error × σ) :=
  match db.CreateIndexFunc with
  | none => none
  | some f => some (f ctx ddoc name index opts w)

/-- Go `func (db *OptsFinder) DeleteIndex`. -/
def DeleteIndex (db : OptsFinder σ T) (ctx : T.Context) (ddoc name : String) (opts : T.Options) (w : σ) :
    Option (T.Error × σ) :=
  match db.DeleteIndexFunc with
  | none => none
  | some f => some (f ctx ddoc name opts w)

/-- Go `func (db *OptsFinder) Find`. -/
def Find (db : OptsFinder σ T) (ctx : T.Context) (query : T.Any) (opts : T.Options) (w : σ) :
    Option ((T.Rows × T.Error) × σ) :=
  match db.FindFunc with
  | none => none
  | some f => some (f ctx query opts w)

/-- Go `func (db *OptsFinder) GetIndexes`. -/
def GetIndexes (db : OptsFinder σ T) (ctx : T.Context) (opts : T.Options) (w : σ) :
    Option ((T.Indexes × T.Error) × σ) :=
  match db.GetIndexesFunc with
  | none => none
  | some f => some (f ctx opts w)

/-- Go `func (db *OptsFinder) Explain`. -/
def Explain (db : OptsFinder σ T) (ctx : T.Context) (query : T.Any) (opts : T.Options) (w : σ) :
    Option ((T.QueryPlan × T.Error) × σ) :=
  match db.ExplainFunc with
  | none => none
  | some f => some (f ctx query opts w)

end OptsFinder

/-- Go `type Flusher struct`, embedding `*DB`. -/
structure Flusher (σ : Type) (T : GoTypes) where
  DB : Option (Mock.DB σ T)
  FlushFunc : Option (T.Context → Ret σ T.Error)

namespace Flusher

variable {σ : Type} {T : GoTypes}

/-- Go `func (db *Flusher) Flush`. -/
def Flush (db : Flusher σ T) (ctx : T.Context) (w : σ) :
    Option (T.Error × σ) :=
  match db.FlushFunc with
  | none => none
  | some f => some (f ctx w)

end Flusher

/-- Go `type MetaGetter struct`, embedding `*DB`. -/
structure MetaGetter (σ : Type) (T : GoTypes) where
  DB : Option (Mock.DB σ T)
  GetMetaFunc : Option (T.Context → String → T.Options → Ret σ (Int × String × T.Error))

namespace MetaGetter

variable {σ : Type} {T : GoTypes}

/-- Go `func (db *MetaGetter) GetMeta`. -/
def GetMeta (db : MetaGetter σ T) (ctx : T.Context) (docID : String) (opts : T.Options) (w : σ) :
    Option ((Int × String × T.Error) × σ) :=
  match db.GetMetaFunc with
  | none => none
  | some f => some (f ctx docID opts w)

end MetaGetter

/-- Go `type Copier struct`, embedding `*DB`. -/
structure Copier (σ : Type) (T : GoTypes) where
  DB : Option (Mock.DB σ T)
  CopyFunc : Option (T.Context → String → String → T.Options → Ret σ (String × T.Error))

namespace Copier

variable {σ : Type} {T : GoTypes}

/-- Go `func (db *Copier) Copy`. -/
def Copy (db : Copier σ T) (ctx : T.Context) (target source : String) (options : T.Options) (w : σ) :
    Option ((String × T.Error) × σ) :=
  match db.CopyFunc with
  | none => none
  | some f => some (f ctx target source options w)

end Copier

/-- Go `type AttachmentMetaGetter struct`, embedding `*DB`. -/
structure AttachmentMetaGetter (σ : Type) (T : GoTypes) where
  DB : Option (Mock.DB σ T)
  GetAttachmentMetaFunc : Option (T.Context → String → String → T.Options → Ret σ (T.Attachment × T.Error))

namespace AttachmentMetaGetter

variable {σ : Type} {T : GoTypes}

/-- Go `func (db *AttachmentMetaGetter) GetAttachmentMeta`. -/
def GetAttachmentMeta (db : AttachmentMetaGetter σ T) (ctx : T.Context) (docID filename : String) (options : T.Options) (w : σ) :
    Option ((T.Attachment × T.Error) × σ) :=
  match db.GetAttachmentMetaFunc with
  | none => none
  | some f => some (f ctx docID filename options w)

end AttachmentMetaGetter

/-- Go `type DesignDocer struct`, embedding `*DB`. -/
structure DesignDocer (σ : Type) (T : GoTypes) where
  DB : Option (Mock.DB σ T)
  DesignDocsFunc : Option (T.Context → T.Options → Ret σ (T.Rows × T.Error))

namespace DesignDocer

variable {σ : Type} {T : GoTypes}

/-- Go `func (db *DesignDocer) DesignDocs`. -/
def DesignDocs (db : DesignDocer σ T) (ctx : T.Context) (options : T.Options) (w : σ) :
    Option ((T.Rows × T.Error) × σ) :=
  match db.DesignDocsFunc with
  | none => none
  | some f => some (f ctx options w)

end DesignDocer

/-- Go `type LocalDocer struct`, embedding `*DB`. -/
structure LocalDocer (σ : Type) (T : GoTypes) where
  DB : Option (Mock.DB σ T)
  LocalDocsFunc : Option (T.Context → T.Options → Ret σ (T.Rows × T.Error))

namespace LocalDocer

variable {σ : Type} {T : GoTypes}

/-- Go `func (db *LocalDocer) LocalDocs`. -/
def LocalDocs (db : LocalDocer σ T) (ctx : T.Context) (options : T.Options) (w : σ) :
    Option ((T.Rows × T.Error) × σ) :=
  match db.LocalDocsFunc with
  | none => none
  | some f => some (f ctx options w)

end LocalDocer

/-- Go `type Purger struct`, embedding `*DB`. -/
structure Purger (σ : Type) (T : GoTypes) where
  DB : Option (Mock.DB σ T)
  PurgeFunc : Option (T.Context → T.DocMap → Ret σ (T.PurgeResult × T.Error))

namespace Purger

variable {σ : Type} {T : GoTypes}

/-- Go `func (db *Purger) Purge`. -/
def Purge (db : Purger σ T) (ctx : T.Context) (docMap : T.DocMap) (w : σ) :
    Option ((T.PurgeResult × T.Error) × σ) :=
  match db.PurgeFunc with
  | none => none
  | some f => some (f ctx docMap w)

end Purger

/-- Go `type BulkGetter struct`, embedding `*DB`. -/
structure BulkGetter (σ : Type) (T : GoTypes) where
  DB : Option (Mock.DB σ T)
  BulkGetFunc : Option (T.Context → T.BulkGetReferences → T.Options → Ret σ (T.Rows × T.Error))

namespace BulkGetter

variable {σ : Type} {T : GoTypes}

/-- Go `func (db *BulkGetter) BulkGet`. -/
def BulkGet (db : BulkGetter σ T) (ctx : T.Context) (docs : T.BulkGetReferences) (opts : T.Options) (w : σ) :
    Option ((T.Rows × T.Error) × σ) :=
  match db.BulkGetFunc with
  | none => none
  | some f => some (f ctx docs opts w)

end BulkGetter

/-- Go `type DBCloser struct`, embedding `*DB`. -/
structure DBCloser (σ : Type) (T : GoTypes) where
  DB : Option (Mock.DB σ T)
  CloseFunc : Option (T.Context → Ret σ T.Error)

namespace DBCloser

variable {σ : Type} {T : GoTypes}

/-- Go `func (db *DBCloser) Close`. -/
def Close (db : DBCloser σ T) (ctx : T.Context) (w : σ) :
    Option (T.Error × σ) :=
  match db.CloseFunc with
  | none => none
  | some f => some (f ctx w)

end DBCloser

/-- Go `type RevsDiffer struct`, embedding `*BulkDocer`. -/
structure RevsDiffer (σ : Type) (T : GoTypes) where
  BulkDocer : T.BulkDocer
  RevsDiffFunc : Option (T.Context → T.Any → Ret σ (T.Rows × T.Error))

namespace RevsDiffer

variable {σ : Type} {T : GoTypes}

/-- Go `func (db *RevsDiffer) RevsDiff`. -/
def RevsDiff (db : RevsDiffer σ T) (ctx : T.Context) (revMap : T.Any) (w : σ) :
    Option ((T.Rows × T.Error) × σ) :=
  match db.RevsDiffFunc with
  | none => none
  | some f => some (f ctx revMap w)

end RevsDiffer

/-- Go `type PartitionedDB struct`, embedding `*DB`. -/
structure PartitionedDB (σ : Type) (T : GoTypes) where
  DB : Option (Mock.DB σ T)
  PartitionStatsFunc : Option (T.Context → String → Ret σ (T.PartitionStats × T.Error))

namespace PartitionedDB

variable {σ : Type} {T : GoTypes}

/-- Go `func (db *PartitionedDB) PartitionStats`. -/
def PartitionStats (db : PartitionedDB σ T) (ctx : T.Context) (name : String) (w : σ) :
    Option ((T.PartitionStats × T.Error) × σ) :=
  match db.PartitionStatsFunc with
  | none => none
  | some f => some (f ctx name w)

end PartitionedDB

/-! ### Sample values -/

/-- An instance of the Go types in which each has a single value. -/
def unitTypes : GoTypes where
  Context := Unit
  Options := Unit
  Any := Unit
  Error := Unit
  Time := Unit
  Rows := Unit
  Changes := Unit
  Document := Unit
  DBStats := Unit
  Security := Unit
  Attachment := Unit
  Indexes := Unit
  QueryPlan := Unit
  DocMap := Unit
  PurgeResult := Unit
  BulkGetReferences := Unit
  PartitionStats := Unit
  ReplicationInfo := Unit
  BulkDocer := Unit

/-- A replication with the identifier `rep1` and every function field unset.
The world is the number of calls made so far. -/
def bareReplication : Replication Nat unitTypes where
  ID := "rep1"
  DeleteFunc := none
  StartTimeFunc := none
  EndTimeFunc := none
  ErrFunc := none
  ReplicationIDFunc := none
  SourceFunc := none
  TargetFunc := none
  StateFunc := none
  UpdateFunc := none

/-- A replication whose source, target and state functions are set; each call
counts itself in the world. -/
def scriptedReplication : Replication Nat unitTypes where
  ID := "rep2"
  DeleteFunc := none
  StartTimeFunc := none
  EndTimeFunc := none
  ErrFunc := none
  ReplicationIDFunc := none
  SourceFunc := some (fun w => ("http://a.example/db", w + 1))
  TargetFunc := some (fun w => ("http://b.example/db", w + 1))
  StateFunc := some (fun w => ("crashing", w + 1))
  UpdateFunc := none

end Mock

end Kivik

/-! # Properties -/

namespace Kivik

namespace Driver

/-! ## The copy loop of `UnmarshalJSON` -/

theorem makeStrings_length (n : Nat) : (makeStrings n).length = n := by
  simp [makeStrings]

theorem assignIndex_of_lt (revs : List String) (i : Nat) (v : String) (h : i < revs.length) :
    assignIndex revs i v = some (revs.set i v) := by
  simp [assignIndex, h]

theorem assignIndex_middle (pre post : List String) (m v : String) (mid : List String) :
    assignIndex (pre ++ (m :: mid) ++ post) pre.length v = some (pre ++ (v :: mid) ++ post) := by
  have hlt : pre.length < (pre ++ (m :: mid) ++ post).length := by
    simp
  rw [assignIndex_of_lt _ _ _ hlt]
  simp [List.set_append]

/-- The loop resumed behind a prefix `pre` never leaves the slice when as many
elements follow as records are still to visit: it overwrites exactly those
elements with the revisions of the records, in order. -/
theorem copyRevs_append (rs : List RevRecord) :
    ∀ (pre mid post : List String), mid.length = rs.length →
      copyRevs rs pre.length (pre ++ mid ++ post)
        = some (pre ++ rs.map RevRecord.Rev ++ post) := by
  induction rs with
  | nil =>
    intro pre mid post h
    have hmid : mid = [] := List.length_eq_zero.mp (by simpa using h)
    subst hmid
    simp [copyRevs]
  | cons r rest ih =>
    intro pre mid post h
    cases mid with
    | nil => simp at h
    | cons m mid1 =>
      have hlen : mid1.length = rest.length := by simpa using h
      have hstep := ih (pre ++ [r.Rev]) mid1 post hlen
      rw [copyRevs, assignIndex_middle]
      simp only [List.length_append, List.length_singleton, List.append_assoc,
        List.singleton_append, List.cons_append, List.nil_append] at hstep
      simp only [List.map_cons, List.append_assoc, List.cons_append]
      exact hstep

/-- The whole loop on a freshly made slice of the right length gives the
revisions of the records, in order, and never panics. -/
theorem copyRevs_make (rs : List RevRecord) :
    copyRevs rs 0 (makeStrings rs.length) = some (rs.map RevRecord.Rev) := by
  have h := copyRevs_append rs [] (makeStrings rs.length) [] (makeStrings_length _)
  simpa using h

theorem Slice_len_eq_length_elems {α : Type} (s : Slice α) : s.len = s.elems.length := by
  cases s <;> rfl

/-- What `UnmarshalJSON` does when the decode step reports no error. -/
theorem UnmarshalJSON_of_decoded {ε : Type}
    (unmarshal : List UInt8 → Slice RevRecord × Option ε) (c : ChangedRevs)
    (data : List UInt8) (changes : Slice RevRecord) (h : unmarshal data = (changes, none)) :
    ChangedRevs.UnmarshalJSON unmarshal c data
      = some (some (changes.elems.map RevRecord.Rev), none) := by
  unfold ChangedRevs.UnmarshalJSON
  rw [h]
  simp only []
  rw [Slice_len_eq_length_elems, copyRevs_make]

/-- What `UnmarshalJSON` does when the decode step reports an error. -/
theorem UnmarshalJSON_of_failed {ε : Type}
    (unmarshal : List UInt8 → Slice RevRecord × Option ε) (c : ChangedRevs)
    (data : List UInt8) (e : ε) (h : (unmarshal data).2 = some e) :
    ChangedRevs.UnmarshalJSON unmarshal c data = some (c, some e) := by
  unfold ChangedRevs.UnmarshalJSON
  rcases hu : unmarshal data with ⟨changes, err⟩
  rw [hu] at h
  simp only at h
  subst h
  rfl

/-! ## `ChangedRevs.UnmarshalJSON` -/

/-- C1: for every input that the decode step turns, without error, into the
records `r_0 .. r_(n-1)`, `UnmarshalJSON` returns with a nil error and sets the
receiver to a slice of length `n` whose element at every index `i < n` is the
`Rev` string of `r_i`: input order is kept, nothing is reordered, dropped or
duplicated. -/
theorem UnmarshalJSON_extracts_revs_in_order {ε : Type}
    (unmarshal : List UInt8 → Slice RevRecord × Option ε) (c : ChangedRevs)
    (data : List UInt8) (records : List RevRecord)
    (h : unmarshal data = (some records, none)) :
    ∃ revs : List String,
      ChangedRevs.UnmarshalJSON unmarshal c data = some (some revs, none) ∧
      revs.length = records.length ∧
      ∀ (i : Nat) (hi : i < records.length), revs[i]? = some (records[i]).Rev := by
  refine ⟨records.map RevRecord.Rev, ?_, ?_, ?_⟩
  · exact UnmarshalJSON_of_decoded unmarshal c data (some records) h
  · simp
  · intro i hi
    simp [List.getElem?_map, List.getElem?_eq_getElem hi]

/-- The spec's example `[{"rev":"1-a"},{"rev":"2-b"}]` decodes to `["1-a","2-b"]`. -/
theorem UnmarshalJSON_extracts_revs_in_order_witness :
    jsonUnmarshal sampleParse twoRevsText = (some twoRevsRecords, none) ∧
    (∃ revs : List String,
      ChangedRevs.UnmarshalJSON (jsonUnmarshal sampleParse) (some ["0-old"]) twoRevsText
        = some (some revs, none) ∧
      revs.length = twoRevsRecords.length ∧
      ∀ (i : Nat) (hi : i < twoRevsRecords.length),
        revs[i]? = some (twoRevsRecords[i]).Rev) ∧
    ChangedRevs.UnmarshalJSON (jsonUnmarshal sampleParse) (some ["0-old"]) twoRevsText
      = some (some ["1-a", "2-b"], none) :=
  ⟨by decide,
   UnmarshalJSON_extracts_revs_in_order (jsonUnmarshal sampleParse) (some ["0-old"])
     twoRevsText twoRevsRecords (by decide),
   by decide⟩

/-- C2: for every input that the decode step turns, without error, into `n`
records, the receiver after `UnmarshalJSON` has length exactly `n`: one output
element per input record, whatever the revision strings are (empty ones
included). -/
theorem UnmarshalJSON_preserves_length {ε : Type}
    (unmarshal : List UInt8 → Slice RevRecord × Option ε) (c : ChangedRevs)
    (data : List UInt8) (records : List RevRecord)
    (h : unmarshal data = (some records, none)) :
    ∃ c1 : ChangedRevs,
      ChangedRevs.UnmarshalJSON unmarshal c data = some (c1, none) ∧
      c1.len = records.length := by
  refine ⟨some (records.map RevRecord.Rev), ?_, ?_⟩
  · exact UnmarshalJSON_of_decoded unmarshal c data (some records) h
  · simp [Slice.len]

/-- Three records, two of them with an empty revision, give three elements. -/
theorem UnmarshalJSON_preserves_length_witness :
    jsonUnmarshal sampleParse missingRevText = (some missingRevRecords, none) ∧
    ∃ c1 : ChangedRevs,
      ChangedRevs.UnmarshalJSON (jsonUnmarshal sampleParse) none missingRevText
        = some (c1, none) ∧
      c1.len = missingRevRecords.length :=
  ⟨by decide,
   UnmarshalJSON_preserves_length (jsonUnmarshal sampleParse) none missingRevText
     missingRevRecords (by decide)⟩

/-- C3: when the decode step reports no error and leaves a slice of length 0
(as for the empty JSON array), `UnmarshalJSON` returns a nil error and the
receiver becomes the empty slice that is present: not nil, length 0, whatever
the receiver held before. -/
theorem UnmarshalJSON_empty_is_present {ε : Type}
    (unmarshal : List UInt8 → Slice RevRecord × Option ε) (c : ChangedRevs)
    (data : List UInt8) (changes : Slice RevRecord)
    (h : unmarshal data = (changes, none)) (h0 : changes.len = 0) :
    ∃ c1 : ChangedRevs,
      ChangedRevs.UnmarshalJSON unmarshal c data = some (c1, none) ∧
      c1 = some [] ∧ c1.isNil = false ∧ c1.len = 0 := by
  have hel : changes.elems = [] :=
    List.length_eq_zero.mp (by rw [← Slice_len_eq_length_elems]; exact h0)
  refine ⟨some [], ?_, rfl, rfl, rfl⟩
  rw [UnmarshalJSON_of_decoded unmarshal c data changes h, hel]
  rfl

/-- The text `[]` replaces a non-empty receiver by the present empty slice. -/
theorem UnmarshalJSON_empty_is_present_witness :
    jsonUnmarshal sampleParse emptyArrayText = (some [], none) ∧
    Slice.len (some ([] : List RevRecord)) = 0 ∧
    ∃ c1 : ChangedRevs,
      ChangedRevs.UnmarshalJSON (jsonUnmarshal sampleParse) (some ["0-old"]) emptyArrayText
        = some (c1, none) ∧
      c1 = some [] ∧ c1.isNil = false ∧ c1.len = 0 :=
  ⟨by decide, rfl,
   UnmarshalJSON_empty_is_present (jsonUnmarshal sampleParse) (some ["0-old"]) emptyArrayText
     (some []) (by decide) rfl⟩

/-- C5 (as amended): `UnmarshalJSON` returns a non-nil error `e` exactly when the
decode step fails with `e`: the decoder's error is handed back as it is, never
success with a defaulted list, and `UnmarshalJSON` raises no error of its own
(it makes no check of the text besides the decoder's). -/
theorem UnmarshalJSON_error_iff_decode_error {ε : Type}
    (unmarshal : List UInt8 → Slice RevRecord × Option ε) (c : ChangedRevs)
    (data : List UInt8) (e : ε) :
    ((unmarshal data).2 = some e ↔
      ∃ c1 : ChangedRevs, ChangedRevs.UnmarshalJSON unmarshal c data = some (c1, some e)) ∧
    ((unmarshal data).2 = some e →
      ∀ c1 : ChangedRevs, ChangedRevs.UnmarshalJSON unmarshal c data ≠ some (c1, none)) := by
  refine ⟨⟨?_, ?_⟩, ?_⟩
  · intro h
    exact ⟨c, UnmarshalJSON_of_failed unmarshal c data e h⟩
  · rintro ⟨c1, h⟩
    rcases hu : unmarshal data with ⟨changes, err⟩
    cases err with
    | none =>
      rw [UnmarshalJSON_of_decoded unmarshal c data changes hu] at h
      simp at h
    | some e1 =>
      have hfail : (unmarshal data).2 = some e1 := by rw [hu]
      rw [UnmarshalJSON_of_failed unmarshal c data e1 hfail] at h
      simp only [Option.some.injEq, Prod.mk.injEq] at h
      rw [h.2]
  · intro h c1 hc
    rw [UnmarshalJSON_of_failed unmarshal c data e h] at hc
    simp at hc

/-- A cut-off text, which the reader rejects, fails with the reader's error. -/
theorem UnmarshalJSON_error_iff_decode_error_witness :
    (jsonUnmarshal sampleParse truncatedText).2 = some DecodeError.malformed ∧
    (∃ c1 : ChangedRevs,
      ChangedRevs.UnmarshalJSON (jsonUnmarshal sampleParse) (some ["0-old"]) truncatedText
        = some (c1, some DecodeError.malformed)) ∧
    ∀ c1 : ChangedRevs,
      ChangedRevs.UnmarshalJSON (jsonUnmarshal sampleParse) (some ["0-old"]) truncatedText
        ≠ some (c1, none) :=
  ⟨by decide,
   (UnmarshalJSON_error_iff_decode_error (jsonUnmarshal sampleParse) (some ["0-old"])
     truncatedText DecodeError.malformed).1.mp (by decide),
   (UnmarshalJSON_error_iff_decode_error (jsonUnmarshal sampleParse) (some ["0-old"])
     truncatedText DecodeError.malformed).2 (by decide)⟩

/-- The recognizer accepts the well-formed sample texts, also with white space
and with the number `-1`, and rejects the cut-off text. -/
theorem wellFormedJSON_samples :
    wellFormedJSON twoRevsText = true ∧
    wellFormedJSON emptyArrayText = true ∧
    wellFormedJSON (ascii " [ ] ") = true ∧
    wellFormedJSON missingRevText = true ∧
    wellFormedJSON numericRevText = true ∧
    wellFormedJSON upperRevText = true ∧
    wellFormedJSON (ascii "[\x7b\"id\":-1\x7d]") = true ∧
    wellFormedJSON (ascii "[\x7b\"id\":-0.5e+10, \"a\":[true,null,\"\\u00e9\"]\x7d]") = true ∧
    wellFormedJSON truncatedText = false :=
  ⟨by decide, by decide, by decide, by decide, by decide, by decide, by decide, by decide,
   by decide⟩

/-- C5 (as stated) fails: the text `[{"id":-01}]` is not well-formed JSON (a
number may not start with `-0` followed by a digit), yet the decode step
accepts it and `UnmarshalJSON` returns a nil error, replacing the receiver
`["0-old"]` by `[""]`. -/
theorem UnmarshalJSON_accepts_ill_formed_number :
    wellFormedJSON leadingZeroText = false ∧
    ChangedRevs.UnmarshalJSON (jsonUnmarshal lenientParse) (some ["0-old"]) leadingZeroText
      = some (some [""], none) :=
  ⟨by decide, by decide⟩

/-! ## Records without a `rev` member -/

theorem lastRev_cons_other (kv : String × Json) (rest : List (String × Json))
    (h : isRevName kv.1 = false) : lastRev (kv :: rest) = lastRev rest := by
  simp [lastRev, List.filter_cons, h]

theorem filter_rev_eq_nil (fs : List (String × Json)) (h : hasRev fs = false) :
    fs.filter (fun kv => isRevName kv.1) = [] := by
  rw [List.filter_eq_nil_iff]
  intro kv hkv hp
  have : hasRev fs = true := by
    simp only [hasRev, List.any_eq_true]
    exact ⟨kv, hkv, hp⟩
  rw [h] at this
  exact Bool.noConfusion this

theorem lastRev_of_not_hasRev (fs : List (String × Json)) (h : hasRev fs = false) :
    lastRev fs = none := by
  simp [lastRev, filter_rev_eq_nil fs h]

theorem lastRev_of_hasRev (fs : List (String × Json)) (hs : revsAreStrings fs = true)
    (h : hasRev fs = true) :
    (fs.filter (fun kv => isRevName kv.1)) ≠ [] ∧ ∃ s, lastRev fs = some s := by
  have hne : (fs.filter (fun kv => isRevName kv.1)) ≠ [] := by
    intro hnil
    rw [List.filter_eq_nil_iff] at hnil
    simp only [hasRev, List.any_eq_true] at h
    obtain ⟨kv, hkv, hp⟩ := h
    exact hnil kv hkv hp
  refine ⟨hne, ?_⟩
  have hlast := List.getLast?_eq_getLast _ hne
  have hmem := List.getLast_mem hne
  generalize (fs.filter (fun kv => isRevName kv.1)).getLast hne = x at hlast hmem
  obtain ⟨k, v⟩ := x
  rw [List.mem_filter] at hmem
  obtain ⟨hin, hk⟩ := hmem
  have hk1 : isRevName k = true := hk
  simp only [revsAreStrings, List.all_eq_true] at hs
  have hv := hs (k, v) hin
  simp only [hk1, if_true] at hv
  cases v with
  | str t => exact ⟨t, by simp [lastRev, hlast]⟩
  | null => simp at hv
  | bool b => simp at hv
  | num n => simp at hv
  | arr items => simp at hv
  | obj fields => simp at hv

theorem lastRev_cons_rev (kv : String × Json) (rest : List (String × Json)) (s : String)
    (hk : isRevName kv.1 = true) (hv : kv.2 = .str s) (hs : revsAreStrings rest = true) :
    lastRev (kv :: rest) = some ((lastRev rest).getD s) := by
  obtain ⟨k, v⟩ := kv
  simp only at hk hv
  subst hv
  cases hr : hasRev rest with
  | false =>
    rw [lastRev_of_not_hasRev rest hr]
    simp [lastRev, List.filter_cons, filter_rev_eq_nil rest hr, hk]
  | true =>
    obtain ⟨hne, t, ht⟩ := lastRev_of_hasRev rest hs hr
    rw [ht]
    obtain ⟨y, ys, hys⟩ := List.exists_cons_of_ne_nil hne
    have : lastRev ((k, Json.str s) :: rest) = lastRev rest := by
      simp [lastRev, List.filter_cons, hys, hk]
    rw [this, ht]
    rfl

theorem decodeFields_eq (fs : List (String × Json)) :
    ∀ r : RevRecord, revsAreStrings fs = true →
      decodeFields fs r = .ok { Rev := (lastRev fs).getD r.Rev } := by
  induction fs with
  | nil =>
    intro r _
    simp [decodeFields, lastRev]
  | cons kv rest ih =>
    intro r hs
    obtain ⟨k, v⟩ := kv
    have hrest : revsAreStrings rest = true := by
      simp only [revsAreStrings, List.all_cons, Bool.and_eq_true] at hs ⊢
      exact hs.2
    cases hk : isRevName k with
    | true =>
      have hv : ∃ s, v = .str s := by
        simp only [revsAreStrings, List.all_cons, Bool.and_eq_true, hk, if_true] at hs
        cases v <;> simp at hs
        exact ⟨_, rfl⟩
      obtain ⟨s, rfl⟩ := hv
      rw [decodeFields, if_pos hk]
      simp only [storeRev]
      rw [ih _ hrest, lastRev_cons_rev (k, .str s) rest s hk rfl hrest]
      rfl
    | false =>
      have hneg : ¬ (isRevName (k, v).1 = true) := by simp [hk]
      rw [decodeFields, if_neg hneg, ih r hrest, lastRev_cons_other (k, v) rest hk]

theorem decodeRecord_obj (fs : List (String × Json)) (hs : revsAreStrings fs = true) :
    decodeRecord (.obj fs) = .ok { Rev := revOf (.obj fs) } := by
  rw [decodeRecord, decodeFields_eq fs _ hs]
  rfl

theorem decodeRecords_eq (items : List Json)
    (hobj : ∀ j ∈ items, ∃ fs, j = .obj fs ∧ revsAreStrings fs = true) :
    decodeRecords items = .ok (items.map (fun j => { Rev := revOf j })) := by
  induction items with
  | nil => rfl
  | cons j js ih =>
    obtain ⟨fs, rfl, hs⟩ := hobj j (List.mem_cons_self _ _)
    have hjs := ih (fun x hx => hobj x (List.mem_cons_of_mem _ hx))
    rw [decodeRecords, decodeRecord_obj fs hs]
    simp only []
    rw [hjs]
    rfl

theorem jsonUnmarshal_objects (parse : List UInt8 → Option Json) (data : List UInt8)
    (items : List Json) (hparse : parse data = some (.arr items))
    (hobj : ∀ j ∈ items, ∃ fs, j = .obj fs ∧ revsAreStrings fs = true) :
    jsonUnmarshal parse data = (some (items.map (fun j => { Rev := revOf j })), none) := by
  unfold jsonUnmarshal
  rw [hparse]
  simp only []
  rw [decodeRecords_eq items hobj]

/-- C4 (as amended): for every input read as a JSON array of objects in which
every member named `rev` (in any letter case) holds a string, `UnmarshalJSON`
returns a nil error and one output element per object; at every position whose
object has no member named `rev` the output is the empty string, and every
position whose object carries a `rev` string holds that string. -/
theorem UnmarshalJSON_missing_rev_is_empty (parse : List UInt8 → Option Json)
    (c : ChangedRevs) (data : List UInt8) (items : List Json)
    (hparse : parse data = some (.arr items))
    (hobj : ∀ j ∈ items, ∃ fs, j = .obj fs ∧ revsAreStrings fs = true) :
    ∃ revs : List String,
      ChangedRevs.UnmarshalJSON (jsonUnmarshal parse) c data = some (some revs, none) ∧
      revs.length = items.length ∧
      ∀ (i : Nat) (fs : List (String × Json)), items[i]? = some (.obj fs) →
        (hasRev fs = false → revs[i]? = some "") ∧
        (∀ s : String, lastRev fs = some s → revs[i]? = some s) := by
  refine ⟨(items.map (fun j => ({ Rev := revOf j } : RevRecord))).map RevRecord.Rev, ?_, ?_, ?_⟩
  · exact UnmarshalJSON_of_decoded (jsonUnmarshal parse) c data _
      (jsonUnmarshal_objects parse data items hparse hobj)
  · simp
  · intro i fs hi
    have hget : ((items.map (fun j => ({ Rev := revOf j } : RevRecord))).map RevRecord.Rev)[i]?
        = some ((lastRev fs).getD "") := by
      simp [List.getElem?_map, hi, revOf]
    rw [hget]
    constructor
    · intro hno
      rw [lastRev_of_not_hasRev fs hno]
      rfl
    · intro s hs
      rw [hs]
      rfl

/-- C4 (as stated) fails: `[{"id":"x"},{"rev":1}]` is a JSON array of objects
whose first element has no `rev` member, yet `UnmarshalJSON` returns a decode
error and leaves the receiver as it was, since the second `rev` is a number.
And in `[{"REV":"1-a"}]` no member is spelled `rev`, yet the output at that
position is `1-a`, not the empty string: the member `REV` is taken for the
field. -/
theorem UnmarshalJSON_numeric_rev_fails :
    lenientParse numericRevText
      = some (.arr [.obj [("id", .str "x")], .obj [("rev", .num 1)]]) ∧
    hasRev [("id", Json.str "x")] = false ∧
    ChangedRevs.UnmarshalJSON (jsonUnmarshal lenientParse) (some ["0-old"]) numericRevText
      = some (some ["0-old"], some (DecodeError.mismatch "string")) ∧
    lenientParse upperRevText = some (.arr [.obj [("REV", .str "1-a")]]) ∧
    ChangedRevs.UnmarshalJSON (jsonUnmarshal lenientParse) (some ["0-old"]) upperRevText
      = some (some ["1-a"], none) :=
  ⟨by rfl, by decide, by decide, by rfl, by decide⟩

/-- The text `[{"rev":"1-a"},{"id":"x"},{"rev":""}]`: its second record has no
`rev` member and decodes to the empty string. -/
theorem UnmarshalJSON_missing_rev_is_empty_witness :
    sampleParse missingRevText
      = some (.arr [.obj [("rev", .str "1-a")], .obj [("id", .str "x")], .obj [("rev", .str "")]]) ∧
    (∃ revs : List String,
      ChangedRevs.UnmarshalJSON (jsonUnmarshal sampleParse) none missingRevText
        = some (some revs, none) ∧
      revs.length = 3 ∧
      ∀ (i : Nat) (fs : List (String × Json)),
        [Json.obj [("rev", .str "1-a")], .obj [("id", .str "x")], .obj [("rev", .str "")]][i]?
          = some (.obj fs) →
        (hasRev fs = false → revs[i]? = some "") ∧
        (∀ s : String, lastRev fs = some s → revs[i]? = some s)) ∧
    hasRev [("id", Json.str "x")] = false ∧
    ChangedRevs.UnmarshalJSON (jsonUnmarshal sampleParse) none missingRevText
      = some (some ["1-a", "", ""], none) :=
  ⟨by rfl,
   UnmarshalJSON_missing_rev_is_empty sampleParse none missingRevText
     [.obj [("rev", .str "1-a")], .obj [("id", .str "x")], .obj [("rev", .str "")]]
     (by rfl)
     (by
       intro j hj
       simp only [List.mem_cons, List.mem_singleton, List.not_mem_nil, or_false] at hj
       rcases hj with rfl | rfl | rfl
       · exact ⟨_, rfl, by decide⟩
       · exact ⟨_, rfl, by decide⟩
       · exact ⟨_, rfl, by decide⟩),
   by decide, by decide⟩

end Driver

namespace Mock

/-! ## The mock replication handle -/

/-- C6: if `SourceFunc` is nil, `Source()` returns `ID` followed by `-source`
and leaves the world as it was (nothing is called); otherwise it returns
exactly the result of `SourceFunc()`, and `ID` plays no part. -/
theorem Source_default_or_func {σ : Type} {T : GoTypes} (r : Replication σ T) (w : σ) :
    (r.SourceFunc = none → r.Source w = some (r.ID ++ "-source", w)) ∧
    (∀ f : Ret σ String, r.SourceFunc = some f →
      r.Source w = some (f w) ∧
      ∀ id : String, ({ r with ID := id } : Replication σ T).Source w = some (f w)) := by
  constructor
  · intro h
    simp [Replication.Source, h]
  · intro f h
    constructor
    · simp [Replication.Source, h]
    · intro id
      simp [Replication.Source, h]

/-- The bare replication `rep1` reports `rep1-source` without any call; the
scripted one reports what its function returns. -/
theorem Source_default_or_func_witness :
    (bareReplication.SourceFunc = none ∧
      bareReplication.Source 0 = some ("rep1" ++ "-source", 0)) ∧
    (scriptedReplication.SourceFunc = some (fun w => ("http://a.example/db", w + 1)) ∧
      scriptedReplication.Source 0 = some ("http://a.example/db", 1)) :=
  ⟨⟨rfl, (Source_default_or_func bareReplication 0).1 rfl⟩,
   ⟨rfl, ((Source_default_or_func scriptedReplication 0).2 _ rfl).1⟩⟩

/-- C7: if `TargetFunc` is nil, `Target()` returns `ID` followed by `-target`;
otherwise it returns exactly the result of `TargetFunc()`. Replacing
`SourceFunc` by any value, set or not, does not change `Target()`. -/
theorem Target_default_or_func {σ : Type} {T : GoTypes} (r : Replication σ T) (w : σ) :
    (r.TargetFunc = none → r.Target w = some (r.ID ++ "-target", w)) ∧
    (∀ f : Ret σ String, r.TargetFunc = some f → r.Target w = some (f w)) ∧
    (∀ g : Option (Ret σ String),
      ({ r with SourceFunc := g } : Replication σ T).Target w = r.Target w) := by
  refine ⟨?_, ?_, ?_⟩
  · intro h
    simp [Replication.Target, h]
  · intro f h
    simp [Replication.Target, h]
  · intro g
    rfl

/-- The bare replication `rep1` reports `rep1-target`; the scripted one reports
what its function returns. -/
theorem Target_default_or_func_witness :
    (bareReplication.TargetFunc = none ∧
      bareReplication.Target 0 = some ("rep1" ++ "-target", 0)) ∧
    (scriptedReplication.TargetFunc = some (fun w => ("http://b.example/db", w + 1)) ∧
      scriptedReplication.Target 0 = some ("http://b.example/db", 1)) :=
  ⟨⟨rfl, (Target_default_or_func bareReplication 0).1 rfl⟩,
   ⟨rfl, (Target_default_or_func scriptedReplication 0).2.1 _ rfl⟩⟩

/-- C9: for every string `s`, if the call `StateFunc()` returns `s` then
`State()` returns exactly `s` (and leaves the world as that call left it): the
value is passed through, whatever it is. -/
theorem State_passes_through {σ : Type} {T : GoTypes} (r : Replication σ T) (w w1 : σ)
    (f : Ret σ String) (s : String) (hf : r.StateFunc = some f) (hs : f w = (s, w1)) :
    r.State w = some (s, w1) := by
  simp [Replication.State, hf, hs]

/-- A state outside the usual three names is reported as it is. -/
theorem State_passes_through_witness :
    scriptedReplication.StateFunc = some (fun w => ("crashing", w + 1)) ∧
    scriptedReplication.State 4 = some ("crashing", 5) :=
  ⟨rfl, State_passes_through scriptedReplication 4 5 _ "crashing" rfl rfl⟩

/-! ## The mock database and its capability wrappers -/

/-- C8: every method of the mock `DB` and of the wrappers `Finder`, `OptsFinder`,
`Flusher`, `MetaGetter`, `Copier`, `AttachmentMetaGetter`, `DesignDocer`,
`LocalDocer`, `Purger`, `BulkGetter`, `DBCloser`, `RevsDiffer` and
`PartitionedDB` is its like-named `Func` field applied to the same arguments in
the same positions, with that call's results (values, error and world) returned
unchanged; with the field nil the call panics. -/
theorem mock_methods_delegate {σ : Type} {T : GoTypes}
    (db : DB σ T)
    (finder : Finder σ T)
    (optsFinder : OptsFinder σ T)
    (flusher : Flusher σ T)
    (metaGetter : MetaGetter σ T)
    (copier : Copier σ T)
    (attMetaGetter : AttachmentMetaGetter σ T)
    (designDocer : DesignDocer σ T)
    (localDocer : LocalDocer σ T)
    (purger : Purger σ T)
    (bulkGetter : BulkGetter σ T)
    (dbCloser : DBCloser σ T)
    (revsDiffer : RevsDiffer σ T)
    (partitionedDB : PartitionedDB σ T)
    (ctx : T.Context) (opts : T.Options) (doc index query revMap : T.Any)
    (docID rev filename ddoc view name target source : String)
    (security : T.Security) (att : T.Attachment) (docMap : T.DocMap)
    (docs : T.BulkGetReferences) (w : σ) :
    db.AllDocs ctx opts w = db.AllDocsFunc.map (fun f => f ctx opts w) ∧
    db.Get ctx docID opts w = db.GetFunc.map (fun f => f ctx docID opts w) ∧
    db.CreateDoc ctx doc opts w = db.CreateDocFunc.map (fun f => f ctx doc opts w) ∧
    db.Put ctx docID doc opts w = db.PutFunc.map (fun f => f ctx docID doc opts w) ∧
    db.Delete ctx docID rev opts w = db.DeleteFunc.map (fun f => f ctx docID rev opts w) ∧
    db.Stats ctx w = db.StatsFunc.map (fun f => f ctx w) ∧
    db.Compact ctx w = db.CompactFunc.map (fun f => f ctx w) ∧
    db.CompactView ctx docID w = db.CompactViewFunc.map (fun f => f ctx docID w) ∧
    db.ViewCleanup ctx w = db.ViewCleanupFunc.map (fun f => f ctx w) ∧
    db.Security ctx w = db.SecurityFunc.map (fun f => f ctx w) ∧
    db.SetSecurity ctx security w = db.SetSecurityFunc.map (fun f => f ctx security w) ∧
    db.Changes ctx opts w = db.ChangesFunc.map (fun f => f ctx opts w) ∧
    db.PutAttachment ctx docID rev att opts w = db.PutAttachmentFunc.map (fun f => f ctx docID rev att opts w) ∧
    db.GetAttachment ctx docID filename opts w = db.GetAttachmentFunc.map (fun f => f ctx docID filename opts w) ∧
    db.DeleteAttachment ctx docID rev filename opts w = db.DeleteAttachmentFunc.map (fun f => f ctx docID rev filename opts w) ∧
    db.Query ctx ddoc view opts w = db.QueryFunc.map (fun f => f ctx ddoc view opts w) ∧
    finder.CreateIndex ctx ddoc name index w = finder.CreateIndexFunc.map (fun f => f ctx ddoc name index w) ∧
    finder.DeleteIndex ctx ddoc name w = finder.DeleteIndexFunc.map (fun f => f ctx ddoc name w) ∧
    finder.Find ctx query w = finder.FindFunc.map (fun f => f ctx query w) ∧
    finder.GetIndexes ctx w = finder.GetIndexesFunc.map (fun f => f ctx w) ∧
    finder.Explain ctx query w = finder.ExplainFunc.map (fun f => f ctx query w) ∧
    optsFinder.CreateIndex ctx ddoc name index opts w = optsFinder.CreateIndexFunc.map (fun f => f ctx ddoc name index opts w) ∧
    optsFinder.DeleteIndex ctx ddoc name opts w = optsFinder.DeleteIndexFunc.map (fun f => f ctx ddoc name opts w) ∧
    optsFinder.Find ctx query opts w = optsFinder.FindFunc.map (fun f => f ctx query opts w) ∧
    optsFinder.GetIndexes ctx opts w = optsFinder.GetIndexesFunc.map (fun f => f ctx opts w) ∧
    optsFinder.Explain ctx query opts w = optsFinder.ExplainFunc.map (fun f => f ctx query opts w) ∧
    flusher.Flush ctx w = flusher.FlushFunc.map (fun f => f ctx w) ∧
    metaGetter.GetMeta ctx docID opts w = metaGetter.GetMetaFunc.map (fun f => f ctx docID opts w) ∧
    copier.Copy ctx target source opts w = copier.CopyFunc.map (fun f => f ctx target source opts w) ∧
    attMetaGetter.GetAttachmentMeta ctx docID filename opts w = attMetaGetter.GetAttachmentMetaFunc.map (fun f => f ctx docID filename opts w) ∧
    designDocer.DesignDocs ctx opts w = designDocer.DesignDocsFunc.map (fun f => f ctx opts w) ∧
    localDocer.LocalDocs ctx opts w = localDocer.LocalDocsFunc.map (fun f => f ctx opts w) ∧
    purger.Purge ctx docMap w = purger.PurgeFunc.map (fun f => f ctx docMap w) ∧
    bulkGetter.BulkGet ctx docs opts w = bulkGetter.BulkGetFunc.map (fun f => f ctx docs opts w) ∧
    dbCloser.Close ctx w = dbCloser.CloseFunc.map (fun f => f ctx w) ∧
    revsDiffer.RevsDiff ctx revMap w = revsDiffer.RevsDiffFunc.map (fun f => f ctx revMap w) ∧
    partitionedDB.PartitionStats ctx name w = partitionedDB.PartitionStatsFunc.map (fun f => f ctx name w) :=
  ⟨by cases h : db.AllDocsFunc <;> simp [DB.AllDocs, h],
   by cases h : db.GetFunc <;> simp [DB.Get, h],
   by cases h : db.CreateDocFunc <;> simp [DB.CreateDoc, h],
   by cases h : db.PutFunc <;> simp [DB.Put, h],
   by cases h : db.DeleteFunc <;> simp [DB.Delete, h],
   by cases h : db.StatsFunc <;> simp [DB.Stats, h],
   by cases h : db.CompactFunc <;> simp [DB.Compact, h],
   by cases h : db.CompactViewFunc <;> simp [DB.CompactView, h],
   by cases h : db.ViewCleanupFunc <;> simp [DB.ViewCleanup, h],
   by cases h : db.SecurityFunc <;> simp [DB.Security, h],
   by cases h : db.SetSecurityFunc <;> simp [DB.SetSecurity, h],
   by cases h : db.ChangesFunc <;> simp [DB.Changes, h],
   by cases h : db.PutAttachmentFunc <;> simp [DB.PutAttachment, h],
   by cases h : db.GetAttachmentFunc <;> simp [DB.GetAttachment, h],
   by cases h : db.DeleteAttachmentFunc <;> simp [DB.DeleteAttachment, h],
   by cases h : db.QueryFunc <;> simp [DB.Query, h],
   by cases h : finder.CreateIndexFunc <;> simp [Finder.CreateIndex, h],
   by cases h : finder.DeleteIndexFunc <;> simp [Finder.DeleteIndex, h],
   by cases h : finder.FindFunc <;> simp [Finder.Find, h],
   by cases h : finder.GetIndexesFunc <;> simp [Finder.GetIndexes, h],
   by cases h : finder.ExplainFunc <;> simp [Finder.Explain, h],
   by cases h : optsFinder.CreateIndexFunc <;> simp [OptsFinder.CreateIndex, h],
   by cases h : optsFinder.DeleteIndexFunc <;> simp [OptsFinder.DeleteIndex, h],
   by cases h : optsFinder.FindFunc <;> simp [OptsFinder.Find, h],
   by cases h : optsFinder.GetIndexesFunc <;> simp [OptsFinder.GetIndexes, h],
   by cases h : optsFinder.ExplainFunc <;> simp [OptsFinder.Explain, h],
   by cases h : flusher.FlushFunc <;> simp [Flusher.Flush, h],
   by cases h : metaGetter.GetMetaFunc <;> simp [MetaGetter.GetMeta, h],
   by cases h : copier.CopyFunc <;> simp [Copier.Copy, h],
   by cases h : attMetaGetter.GetAttachmentMetaFunc <;> simp [AttachmentMetaGetter.GetAttachmentMeta, h],
   by cases h : designDocer.DesignDocsFunc <;> simp [DesignDocer.DesignDocs, h],
   by cases h : localDocer.LocalDocsFunc <;> simp [LocalDocer.LocalDocs, h],
   by cases h : purger.PurgeFunc <;> simp [Purger.Purge, h],
   by cases h : bulkGetter.BulkGetFunc <;> simp [BulkGetter.BulkGet, h],
   by cases h : dbCloser.CloseFunc <;> simp [DBCloser.Close, h],
   by cases h : revsDiffer.RevsDiffFunc <;> simp [RevsDiffer.RevsDiff, h],
   by cases h : partitionedDB.PartitionStatsFunc <;> simp [PartitionedDB.PartitionStats, h]⟩

end Mock

end Kivik

namespace Kivik

namespace Driver

/-! ## Failure leaves the receiver alone -/

/-- C11: `UnmarshalJSON` is atomic on failure: whenever it returns a non-nil
error, the receiver after the call is exactly the receiver before the call,
for every input and every prior value (no partial or emptied list is written). -/
theorem UnmarshalJSON_failure_keeps_receiver {ε : Type}
    (unmarshal : List UInt8 → Slice RevRecord × Option ε) (c c1 : ChangedRevs)
    (data : List UInt8) (e : ε)
    (h : ChangedRevs.UnmarshalJSON unmarshal c data = some (c1, some e)) :
    c1 = c := by
  rcases hu : unmarshal data with ⟨changes, err⟩
  cases err with
  | none =>
    rw [UnmarshalJSON_of_decoded unmarshal c data changes hu] at h
    simp at h
  | some e1 =>
    have hfail : (unmarshal data).2 = some e1 := by rw [hu]
    rw [UnmarshalJSON_of_failed unmarshal c data e1 hfail] at h
    simp only [Option.some.injEq, Prod.mk.injEq] at h
    exact h.1.symm

/-- A cut-off text fails and the receiver `["0-old"]` is still `["0-old"]`. -/
theorem UnmarshalJSON_failure_keeps_receiver_witness :
    ChangedRevs.UnmarshalJSON (jsonUnmarshal sampleParse) (some ["0-old"]) truncatedText
      = some (some ["0-old"], some DecodeError.malformed) ∧
    (some ["0-old"] : ChangedRevs) = some ["0-old"] :=
  ⟨by decide,
   UnmarshalJSON_failure_keeps_receiver (jsonUnmarshal sampleParse) (some ["0-old"])
     (some ["0-old"]) truncatedText DecodeError.malformed (by decide)⟩

end Driver

namespace Mock

/-! ## Default source and target differ -/

theorem append_source_ne_append_target (id : String) :
    id ++ "-source" ≠ id ++ "-target" := by
  intro h
  have hd := congrArg String.data h
  simp only [String.data_append, List.append_cancel_left_eq] at hd
  exact absurd hd (by decide)

/-- C12: for every replication with `SourceFunc` and `TargetFunc` both nil and
every `ID` (the empty string included), `Source()` and `Target()` both return,
with `ID` followed by `-source` and by `-target`, and these two strings differ. -/
theorem default_Source_ne_default_Target {σ : Type} {T : GoTypes} (r : Replication σ T)
    (w : σ) (hs : r.SourceFunc = none) (ht : r.TargetFunc = none) :
    ∃ s t : String,
      r.Source w = some (s, w) ∧ r.Target w = some (t, w) ∧
      s = r.ID ++ "-source" ∧ t = r.ID ++ "-target" ∧ s ≠ t := by
  refine ⟨r.ID ++ "-source", r.ID ++ "-target", ?_, ?_, rfl, rfl, ?_⟩
  · simp [Replication.Source, hs]
  · simp [Replication.Target, ht]
  · exact append_source_ne_append_target r.ID

/-- The bare replication with the empty identifier reports `-source` and
`-target`, which differ. -/
theorem default_Source_ne_default_Target_witness :
    ({ bareReplication with ID := "" } : Replication Nat unitTypes).SourceFunc = none ∧
    ({ bareReplication with ID := "" } : Replication Nat unitTypes).TargetFunc = none ∧
    ∃ s t : String,
      ({ bareReplication with ID := "" } : Replication Nat unitTypes).Source 0 = some (s, 0) ∧
      ({ bareReplication with ID := "" } : Replication Nat unitTypes).Target 0 = some (t, 0) ∧
      s = "" ++ "-source" ∧ t = "" ++ "-target" ∧ s ≠ t :=
  ⟨rfl, rfl,
   default_Source_ne_default_Target
     ({ bareReplication with ID := "" } : Replication Nat unitTypes) 0 rfl rfl⟩

end Mock

end Kivik
